import Mathlib

/-!
Shallow embedding of the chapter-to-PDF pipeline of the duckydex bot
(the module exporting createChapterPDF, getChapterPages and cleanupTempFiles).

External effects (HTTP fetches, the sharp image codec, pdf-lib serialization)
are modelled as oracle fields of an environment `Env`; every function of the
module itself is translated line by line from the JavaScript source.
-/

namespace DuckyDex

/-- Constant MAX_PDF_MB from the source: the output-size ceiling in megabytes. -/
def MAX_PDF_MB : Nat := 50

/-- Constant MAX_WIDTH from the source: the image width cap in pixels. -/
def MAX_WIDTH : Nat := 1200

/-- The size ceiling in bytes. The source compares
`pdfBytes.length / 1024 / 1024 <= MAX_PDF_MB` in JavaScript doubles; division
by 1024 (a power of two) is exact for lengths below 2^53, so the comparison is
exactly `length <= MAX_PDF_MB * 1024 * 1024`. -/
def PDF_SIZE_LIMIT : Nat := MAX_PDF_MB * 1024 * 1024

/-- One entry of the page list returned by getChapterPages: the page number
and the source image URL. -/
structure ChapterPage where
  page : Nat
  imageUrl : String
deriving DecidableEq

/-- A failure of the HTTP fetch itself (connection error or the 30s timeout);
node-fetch rejects the promise in these cases. -/
inductive FetchError
| network
| timeout
deriving DecidableEq

/-- An HTTP response as delivered by node-fetch: a status code and a body.
node-fetch does NOT reject on a non-success status. -/
structure HttpResponse where
  status : Nat
  body : List Nat
deriving DecidableEq

/-- The ways a single fetchAndCompressImage call can reject. -/
inductive PageError
| fetchFailed (e : FetchError)
| decodeFailed
deriving DecidableEq

/-- The value fetchAndCompressImage resolves with: the re-encoded JPEG
buffer, its pixel dimensions and the original page number. -/
structure CompressedImage where
  buffer : List Nat
  width : Nat
  height : Nat
  pageNumber : Nat
deriving DecidableEq

/-- One page of the assembled PDF: canvas size equals the image's own
dimensions and the image fills the page exactly. -/
structure PdfPage where
  width : Nat
  height : Nat
  image : List Nat
deriving DecidableEq

/-- A serialized PDF: the page list it was assembled from together with the
byte length of the serialized output (pdf-lib's save). -/
structure SavedPdf where
  doc : List PdfPage
  size : Nat
deriving DecidableEq

/-- The oracles for the external collaborators.

`httpGet` is indexed by the quality of the enclosing compression attempt in
addition to the URL: each attempt issues fresh requests, and the index lets
the model express that a request can succeed on one attempt and fail on
another (network nondeterminism resolved by the trace).

`decode` is sharp's decoder: the pixel dimensions of the body, or `none` when
the body is not a decodable image (sharp then throws, rejecting the page).

`encode` is sharp's JPEG encoder: raw body, target width, target height and
quality to the encoded buffer.

`pdfSaveSize` is the byte length pdf-lib's save produces for a page list. -/
structure Env where
  httpGet : Nat → String → Except FetchError HttpResponse
  decode : List Nat → Option (Nat × Nat)
  encode : List Nat → Nat → Nat → Nat → List Nat
  pdfSaveSize : List PdfPage → Nat

/-- The proxy endpoint URL built for a page image URL (encodeURIComponent is
modelled as the identity on the opaque URL token). -/
def proxyUrl (url : String) : String :=
  "https://api.samirb.com.np/manga/img?url=" ++ url

/-- Translation of fetchAndCompressImage: fetch the image through the proxy,
decode it, resize to width at most MAX_WIDTH without enlargement (sharp's
withoutEnlargement resize: new width is the minimum of the original width and
the cap, height scaled by the same factor), and re-encode as JPEG at the
given quality. The response status is never consulted, exactly as in the
source. -/
def fetchAndCompressImage (env : Env) (url : String) (pageNumber quality : Nat) :
    Except PageError CompressedImage :=
  match env.httpGet quality (proxyUrl url) with
  | .error e => .error (.fetchFailed e)
  | .ok res =>
    match env.decode res.body with
    | none => .error .decodeFailed
    | some (w, h) =>
      let newWidth := min w MAX_WIDTH
      let newHeight := if w ≤ MAX_WIDTH then h else h * MAX_WIDTH / w
      .ok { buffer := env.encode res.body newWidth newHeight quality
            width := newWidth
            height := newHeight
            pageNumber := pageNumber }

/-- The PDF page built from one compressed image, as in buildPdf's loop body:
addPage([width, height]) and drawImage over the full canvas. -/
def toPdfPage (i : CompressedImage) : PdfPage :=
  { width := i.width, height := i.height, image := i.buffer }

/-- Translation of buildPdf: embed the images in input order, one page per
image, then save. The serialized byte length comes from the pdfSaveSize
oracle. -/
def buildPdf (env : Env) (imageObjects : List CompressedImage) : SavedPdf :=
  let doc := imageObjects.map toPdfPage
  { doc := doc, size := env.pdfSaveSize doc }

/-- The value extractor matching `results.filter(fulfilled).map(r => r.value)`. -/
def settledValue : Except PageError CompressedImage → Option CompressedImage
  | .ok v => some v
  | .error _ => none

/-- The settled outcomes of one compression attempt, in the input order of
the page list: Promise.allSettled places each outcome at the index of the
originating task. -/
def attemptResults (env : Env) (pages : List ChapterPage) (quality : Nat) :
    List (Except PageError CompressedImage) :=
  pages.map fun p => fetchAndCompressImage env p.imageUrl p.page quality

/-- The fulfilled values of one attempt (the source's imageObjects). -/
def attemptImages (env : Env) (pages : List ChapterPage) (quality : Nat) :
    List CompressedImage :=
  (attemptResults env pages quality).filterMap settledValue

/-- The state of the compression retry loop when it exits: the value of the
loop variable `quality`, the current value of the mutable `pdfBytes`
(undefined until some attempt assembles a document), and — as ghost
instrumentation not present in the source — the list of quality levels at
which an attempt was actually made, in order. -/
structure LoopOut where
  quality : Nat
  pdf : Option SavedPdf
  attempted : List Nat
deriving DecidableEq

/-- Translation of the retry loop
`for (; quality >= 20; quality -= 10) { ... }` of createChapterPDF.
Each iteration fetches and compresses every page at the current quality; if
some page failed (fewer fulfilled than requested) the loop breaks with
`pdfBytes` untouched; otherwise it assembles the PDF, stores it in
`pdfBytes`, and breaks if the size meets the ceiling, else continues at
quality lowered by 10. -/
def compressionLoop (env : Env) (pages : List ChapterPage) (quality : Nat)
    (pdf : Option SavedPdf) (attempted : List Nat) : LoopOut :=
  if _h : 20 ≤ quality then
    let imageObjects := attemptImages env pages quality
    if imageObjects.length < pages.length then
      { quality := quality, pdf := pdf, attempted := attempted ++ [quality] }
    else
      let saved := buildPdf env imageObjects
      if saved.size ≤ PDF_SIZE_LIMIT then
        { quality := quality, pdf := some saved, attempted := attempted ++ [quality] }
      else
        compressionLoop env pages (quality - 10) (some saved) (attempted ++ [quality])
  else
    { quality := quality, pdf := pdf, attempted := attempted }
termination_by quality
decreasing_by omega

/-- The errors createChapterPDF can throw: the explicit "No pages found"
error, and the TypeError raised by fs.writeFileSync when `pdfBytes` is still
undefined (no attempt ever assembled a document). -/
inductive ExportError
| noPages
| writeUndefined
deriving DecidableEq

/-- The result object createChapterPDF resolves with. The source reports the
size as megabytes rounded to two decimals; the model records the exact byte
length, which no claim distinguishes. -/
structure ExportResult where
  path : List Char
  filename : List Char
  totalPages : Nat
  quality : Nat
  sizeBytes : Nat
deriving DecidableEq

/-- Filesystem effects performed by createChapterPDF, in order. -/
inductive FsEff
| mkdirRec (p : List Char)
| writeFile (p : List Char) (pdf : SavedPdf)
deriving DecidableEq

/-- The scratch directory path.join(dirname, '..', 'temp'); its absolute
prefix is irrelevant to the claims and is dropped. -/
def TEMP_DIR : List Char := "temp".toList

/-- Translation of `chapterId.replace(/[\\/]/g, '_')`: every forward or
backward slash becomes an underscore. -/
def sanitize (chapterId : List Char) : List Char :=
  chapterId.map fun c => if c = '/' ∨ c = '\\' then '_' else c

/-- Model of path.dirname: everything before the last separator. -/
def dirname (p : List Char) : List Char :=
  if '/' ∈ p then ((p.reverse.dropWhile fun c => c ≠ '/').drop 1).reverse
  else ['.']

/-- Translation of createChapterPDF. The page list obtained from
getChapterPages is passed in as `pagesResp` (`none` models an unavailable
list, i.e. a falsy JSON response); `tempDirPresent` is the fs.existsSync
state of the scratch directory. Returns the outcome together with the list
of filesystem effects performed, in order. Writing while `pdfBytes` is
undefined throws (fs.writeFileSync rejects undefined data), so no write
effect is recorded on that path. -/
def createChapterPDF (env : Env) (pagesResp : Option (List ChapterPage))
    (chapterId : List Char) (tempDirPresent : Bool) :
    Except ExportError ExportResult × List FsEff :=
  match pagesResp with
  | none => (.error .noPages, [])
  | some pages =>
    if pages.length = 0 then (.error .noPages, [])
    else
      let out := compressionLoop env pages 85 none []
      let filename := sanitize chapterId ++ ".pdf".toList
      let outputPath := TEMP_DIR ++ '/' :: filename
      let effs := (if tempDirPresent then [] else [FsEff.mkdirRec TEMP_DIR]) ++
        [FsEff.mkdirRec (dirname outputPath)]
      match out.pdf with
      | none => (.error .writeUndefined, effs)
      | some saved =>
        (.ok { path := outputPath
               filename := filename
               totalPages := pages.length
               quality := out.quality
               sizeBytes := saved.size },
         effs ++ [FsEff.writeFile outputPath saved])

/-- One directory entry of the scratch directory as seen by the sweep: its
name, its stat mtimeMs, and whether the stat or unlink syscall would throw
for it. -/
structure TempEntry where
  name : List Char
  mtimeMs : Int
  statFails : Bool
  unlinkFails : Bool
deriving DecidableEq

/-- A per-entry failure inside the sweep loop. -/
inductive SweepError
| statError
| unlinkError
deriving DecidableEq

/-- The retention window `60 * 60 * 1000` milliseconds. -/
def RETENTION_MS : Int := 60 * 60 * 1000

/-- The forEach body of cleanupTempFiles over the directory listing: stat
each entry and unlink it when its mtime is older than the cutoff. A thrown
stat or unlink error propagates immediately (there is no try/catch in the
source), leaving the entry being processed and all later entries untouched.
Returns the error, if any, and the entries remaining on disk. -/
def sweepEntries (cutoff : Int) : List TempEntry → Option SweepError × List TempEntry
  | [] => (none, [])
  | e :: rest =>
    if e.statFails then (some .statError, e :: rest)
    else if e.mtimeMs < cutoff then
      if e.unlinkFails then (some .unlinkError, e :: rest)
      else sweepEntries cutoff rest
    else
      let r := sweepEntries cutoff rest
      (r.1, e :: r.2)

/-- The scratch directory state: whether it exists and its listing in
readdir order. -/
structure TempDirState where
  present : Bool
  entries : List TempEntry
deriving DecidableEq

/-- Translation of cleanupTempFiles: return immediately when the directory
does not exist, else sweep every listed entry against the cutoff
`Date.now() - 60*60*1000`. -/
def cleanupTempFiles (now : Int) (st : TempDirState) :
    Option SweepError × TempDirState :=
  if st.present = false then (none, st)
  else
    let r := sweepEntries (now - RETENTION_MS) st.entries
    (r.1, { present := st.present, entries := r.2 })

/-- Completion-order model for Promise.allSettled: the tasks finish in the
order given by `sched` (a permutation of the task indices), producing a
stream of (index, settled outcome) pairs. -/
def completeOrder {α : Type} (tasks : List α) (sched : List Nat) : List (Nat × α) :=
  sched.filterMap fun i => (tasks.get? i).map fun t => (i, t)

/-- Promise.allSettled places every settled outcome back at the array index
of the originating task, whatever order they completed in. -/
def settleBack {α : Type} (n : Nat) (done : List (Nat × α)) : List (Option α) :=
  (List.range n).map fun i => (done.find? fun p => p.1 == i).map Prod.snd

/-- The attempt's settled outcomes as observed through the completion-order
model: tasks complete in `sched` order and allSettled reassembles them. -/
def attemptResultsSched (env : Env) (pages : List ChapterPage) (quality : Nat)
    (sched : List Nat) : List (Option (Except PageError CompressedImage)) :=
  settleBack pages.length (completeOrder (attemptResults env pages quality) sched)

/-- The descending list of quality levels the loop guard admits starting
from `q`: `q, q - 10, ...` while at least 20. -/
def descList (q : Nat) : List Nat :=
  if 20 ≤ q then q :: descList (q - 10) else []
termination_by q
decreasing_by omega

/-- The value of the loop variable after the guard finally fails, starting
from `q` (each iteration ends with the `quality -= 10` update). -/
def exitQuality (q : Nat) : Nat :=
  if 20 ≤ q then exitQuality (q - 10) else q
termination_by q
decreasing_by omega

/-- The value held by `pdfBytes` after a run in which every iteration
assembles a document and none meets the ceiling: each attempt overwrites it,
so the last attempt's document survives (or the initial value if no
iteration ran). -/
def lastAttemptDoc (env : Env) (pages : List ChapterPage) (q : Nat)
    (b : Option SavedPdf) : Option SavedPdf :=
  if 20 ≤ q then
    lastAttemptDoc env pages (q - 10)
      (some (buildPdf env (attemptImages env pages q)))
  else b
termination_by q
decreasing_by omega

/-- The serialized size of the attempt assembled at one quality level. -/
def sizeAt (env : Env) (pages : List ChapterPage) (q : Nat) : Nat :=
  (buildPdf env (attemptImages env pages q)).size

/-- The quality levels the loop actually attempts when run to exhaustion
from the starting value 85. -/
def QUALITIES : List Nat := [85, 75, 65, 55, 45, 35, 25]

/-! Concrete environments used to evaluate the pipeline on specific runs. -/

/-- A run in which every page always fulfils and every assembled document is
oversized (60 MB): the loop runs to exhaustion. The encoder records the
quality in the buffer so the attempt a document came from stays observable. -/
def cexEnvA : Env :=
  { httpGet := fun _ _ => .ok { status := 200, body := [1] }
    decode := fun _ => some (10, 10)
    encode := fun _ _ _ q => [q]
    pdfSaveSize := fun _ => 60 * 1024 * 1024 }

/-- A single page for the exhaustion run. -/
def cexPagesA : List ChapterPage := [{ page := 1, imageUrl := "u1" }]

/-- A run in which all pages fulfil at quality 85 but the document is
oversized, and then one page fails at quality 75: the loop breaks with the
stale quality-85 bytes still in `pdfBytes`. -/
def cexEnvB : Env :=
  { httpGet := fun q url =>
      if q = 75 ∧ url = proxyUrl "u1" then .error .network
      else .ok { status := 200, body := [1] }
    decode := fun _ => some (10, 10)
    encode := fun _ _ _ q => [q]
    pdfSaveSize := fun _ => 60 * 1024 * 1024 }

/-- Two pages for the stale-bytes run. -/
def cexPagesB : List ChapterPage :=
  [{ page := 1, imageUrl := "u1" }, { page := 2, imageUrl := "u2" }]

/-- A run whose page list is NOT in page-number order, every page fulfils,
and the document is tiny (accepted at the first attempt). The encoder passes
the body through so each buffer identifies its page. -/
def cexEnvC : Env :=
  { httpGet := fun _ url =>
      .ok { status := 200, body := if url = proxyUrl "pa" then [1] else [2] }
    decode := fun _ => some (10, 10)
    encode := fun b _ _ _ => b
    pdfSaveSize := fun _ => 0 }

/-- A page list listing page 2 before page 1. -/
def cexPagesC : List ChapterPage :=
  [{ page := 2, imageUrl := "pb" }, { page := 1, imageUrl := "pa" }]

/-- A proxy response with a non-success status (500) whose body nonetheless
decodes as a 100 by 200 image. -/
def cexEnvD : Env :=
  { httpGet := fun _ _ => .ok { status := 500, body := [7] }
    decode := fun b => if b = [7] then some (100, 200) else none
    encode := fun _ w h q => [w, h, q]
    pdfSaveSize := fun _ => 0 }

/-- A run in which a page fails at every quality (network error on every
fetch). -/
def cexEnvE : Env :=
  { httpGet := fun _ _ => .error .network
    decode := fun _ => some (10, 10)
    encode := fun _ _ _ q => [q]
    pdfSaveSize := fun _ => 0 }

/-- An old entry whose unlink throws (for instance, the file is still
open). -/
def cexEntryBad : TempEntry :=
  { name := ['a'], mtimeMs := 0, statFails := false, unlinkFails := true }

/-- An old entry that could be deleted without trouble. -/
def cexEntryOld : TempEntry :=
  { name := ['b'], mtimeMs := 0, statFails := false, unlinkFails := false }

/-- A fresh entry, younger than the retention window. -/
def cexEntryFresh : TempEntry :=
  { name := ['n'], mtimeMs := 2 * RETENTION_MS, statFails := false
    unlinkFails := false }

/-- A scratch directory whose first listed entry fails to unlink and whose
second is old and deletable. -/
def cexStateE : TempDirState :=
  { present := true, entries := [cexEntryBad, cexEntryOld] }

/-- A scratch directory with one old and one fresh entry, no failures. -/
def cexStateF : TempDirState :=
  { present := true, entries := [cexEntryOld, cexEntryFresh] }

/-- An absent scratch directory (the listing models what would be there if
it existed; it is never consulted). -/
def cexStateG : TempDirState :=
  { present := false, entries := [cexEntryOld] }

/-! Helper lemmas about the compression loop. -/

theorem descList_mem (q : Nat) : ∀ x ∈ descList q, 20 ≤ x ∧ x ≤ q := by
  induction q using Nat.strong_induction_on with
  | _ q ih =>
    intro x hx
    rw [descList.eq_def] at hx
    split at hx
    · rcases List.mem_cons.mp hx with h1 | h2
      · omega
      · have := ih (q - 10) (by omega) x h2
        omega
    · simp at hx

theorem descList_85 : descList 85 = QUALITIES := by
  simp [descList, QUALITIES]

theorem exitQuality_85 : exitQuality 85 = 15 := by
  simp [exitQuality]

theorem attemptImages_le (env : Env) (pages : List ChapterPage) (q : Nat) :
    (attemptImages env pages q).length ≤ pages.length := by
  have h := List.length_filterMap_le settledValue (attemptResults env pages q)
  simpa [attemptImages, attemptResults] using h

theorem buildPdf_doc_length (env : Env) (imgs : List CompressedImage) :
    (buildPdf env imgs).doc.length = imgs.length := by
  simp [buildPdf]

theorem compressionLoop_pdf_pages (env : Env) (pages : List ChapterPage) :
    ∀ q b t, (∀ d, b = some d → d.doc.length = pages.length) →
      ∀ d, (compressionLoop env pages q b t).pdf = some d →
        d.doc.length = pages.length := by
  intro q
  induction q using Nat.strong_induction_on with
  | _ q ih =>
    intro b t hb d hd
    rw [compressionLoop.eq_def] at hd
    split at hd
    · dsimp only at hd
      split at hd
      · exact hb d hd
      · split at hd
        · rw [Option.some_inj] at hd
          subst hd
          have h1 := attemptImages_le env pages q
          have h2 := buildPdf_doc_length env (attemptImages env pages q)
          omega
        · refine ih (q - 10) (by omega) _ _ ?_ d hd
          intro d' hd'
          rw [Option.some_inj] at hd'
          subst hd'
          have h1 := attemptImages_le env pages q
          have h2 := buildPdf_doc_length env (attemptImages env pages q)
          omega
    · exact hb d hd

theorem compressionLoop_pass (env : Env) (pages : List ChapterPage)
    (hfull : ∀ q, (attemptImages env pages q).length = pages.length) :
    ∀ q b t q₀, q₀ ∈ descList q → sizeAt env pages q₀ ≤ PDF_SIZE_LIMIT →
      (∀ qq ∈ descList q, q₀ < qq → PDF_SIZE_LIMIT < sizeAt env pages qq) →
      (compressionLoop env pages q b t).quality = q₀ ∧
      (compressionLoop env pages q b t).pdf =
        some (buildPdf env (attemptImages env pages q₀)) := by
  intro q
  induction q using Nat.strong_induction_on with
  | _ q ih =>
    intro b t q₀ hmem hsz hhi
    rw [compressionLoop.eq_def]
    by_cases h20 : 20 ≤ q
    · rw [dif_pos h20]
      dsimp only
      rw [if_neg (by have := hfull q; omega)]
      have e3 : descList q = q :: descList (q - 10) := by
        rw [descList.eq_def, if_pos h20]
      by_cases hq : q₀ = q
      · subst hq
        rw [if_pos (by simpa [sizeAt] using hsz)]
        exact ⟨rfl, rfl⟩
      · have hmem' : q₀ ∈ descList (q - 10) := by
          rw [e3] at hmem
          rcases List.mem_cons.mp hmem with h | h
          · exact absurd h hq
          · exact h
        have hlt : q₀ < q := by
          have := descList_mem (q - 10) q₀ hmem'
          omega
        have hbigq : PDF_SIZE_LIMIT < sizeAt env pages q := by
          refine hhi q ?_ hlt
          rw [e3]
          exact List.mem_cons_self _ _
        rw [if_neg (by simp only [sizeAt] at hbigq; omega)]
        refine ih (q - 10) (by omega) _ _ q₀ hmem' hsz ?_
        intro qq hqq hltq
        refine hhi qq ?_ hltq
        rw [e3]
        exact List.mem_cons_of_mem _ hqq
    · rw [dif_neg h20]
      rw [descList.eq_def, if_neg h20] at hmem
      simp at hmem

theorem compressionLoop_exhaust (env : Env) (pages : List ChapterPage)
    (hfull : ∀ q, (attemptImages env pages q).length = pages.length) :
    ∀ q b t, (∀ qq ∈ descList q, PDF_SIZE_LIMIT < sizeAt env pages qq) →
      compressionLoop env pages q b t =
        { quality := exitQuality q
          pdf := lastAttemptDoc env pages q b
          attempted := t ++ descList q } := by
  intro q
  induction q using Nat.strong_induction_on with
  | _ q ih =>
    intro b t hbig
    rw [compressionLoop.eq_def]
    by_cases h20 : 20 ≤ q
    · rw [dif_pos h20]
      dsimp only
      rw [if_neg (by have := hfull q; omega)]
      have e3 : descList q = q :: descList (q - 10) := by
        rw [descList.eq_def, if_pos h20]
      have hbigq : PDF_SIZE_LIMIT < sizeAt env pages q := by
        refine hbig q ?_
        rw [e3]
        exact List.mem_cons_self _ _
      rw [if_neg (by simp only [sizeAt] at hbigq; omega)]
      rw [ih (q - 10) (by omega) _ _ ?hb]
      case hb =>
        intro qq hqq
        refine hbig qq ?_
        rw [e3]
        exact List.mem_cons_of_mem _ hqq
      have e1 : exitQuality q = exitQuality (q - 10) := by
        rw [exitQuality.eq_def, if_pos h20]
      have e2 : lastAttemptDoc env pages q b =
          lastAttemptDoc env pages (q - 10)
            (some (buildPdf env (attemptImages env pages q))) := by
        rw [lastAttemptDoc.eq_def, if_pos h20]
      rw [e1, e2, e3]
      simp
    · rw [dif_neg h20]
      rw [exitQuality.eq_def, if_neg h20, lastAttemptDoc.eq_def, if_neg h20,
        descList.eq_def, if_neg h20]
      simp

/-- Claim C6: for every chapter whose page list is empty or unavailable,
createChapterPDF rejects with the "no pages found" error before performing
any filesystem effect: no scratch-directory creation and no file write
happen on this path (the effect list is empty). -/
theorem C6_no_pages_no_write (env : Env) (pagesResp : Option (List ChapterPage))
    (chapterId : List Char) (tdp : Bool)
    (h : pagesResp = none ∨ pagesResp = some []) :
    createChapterPDF env pagesResp chapterId tdp = (.error .noPages, []) := by
  rcases h with h | h <;> subst h <;> rfl

/-- Witness for claim C6 at a missing and at an empty page list. -/
theorem C6_witness :
    createChapterPDF cexEnvA none ['x'] true = (.error .noPages, []) ∧
    createChapterPDF cexEnvA (some []) ['x'] true = (.error .noPages, []) :=
  ⟨C6_no_pages_no_write cexEnvA none ['x'] true (Or.inl rfl),
   C6_no_pages_no_write cexEnvA (some []) ['x'] true (Or.inr rfl)⟩

/-- Claim C10: when the scratch directory does not exist, cleanupTempFiles
returns normally without raising an error, deletes nothing (the state is
returned unchanged) and does not create the directory. -/
theorem C10_missing_dir_noop (now : Int) (st : TempDirState)
    (h : st.present = false) :
    cleanupTempFiles now st = (none, st) ∧
    (cleanupTempFiles now st).2.present = false := by
  unfold cleanupTempFiles
  rw [if_pos h]
  exact ⟨rfl, h⟩

/-- Witness for claim C10 at a concrete absent directory. -/
theorem C10_witness :
    cleanupTempFiles 0 cexStateG = (none, cexStateG) ∧
    (cleanupTempFiles 0 cexStateG).2.present = false :=
  C10_missing_dir_noop 0 cexStateG rfl

/-- Claim C9: every compressed page produced by the image fetch-and-compress
step has width equal to the minimum of the source width and the fixed cap
MAX_WIDTH = 1200, hence at most the cap and at most the original width; an
image no wider than the cap keeps its dimensions unchanged (never upscaled),
and a wider one is scaled by the common factor MAX_WIDTH / w, preserving the
aspect ratio. -/
theorem C9_resize_invariants (env : Env) (url : String) (pn q : Nat)
    (res : HttpResponse) (w h : Nat) (img : CompressedImage)
    (hres : env.httpGet q (proxyUrl url) = .ok res)
    (hdec : env.decode res.body = some (w, h))
    (himg : fetchAndCompressImage env url pn q = .ok img) :
    img.width = min w MAX_WIDTH ∧ img.width ≤ MAX_WIDTH ∧ img.width ≤ w ∧
    (w ≤ MAX_WIDTH → img.width = w ∧ img.height = h) ∧
    (MAX_WIDTH < w → img.height = h * MAX_WIDTH / w) := by
  unfold fetchAndCompressImage at himg
  rw [hres] at himg
  dsimp only at himg
  rw [hdec] at himg
  dsimp only at himg
  injection himg with himg
  subst himg
  refine ⟨rfl, Nat.min_le_right _ _, Nat.min_le_left _ _, ?_, ?_⟩
  · intro hw
    refine ⟨?_, ?_⟩
    · dsimp only
      omega
    · dsimp only
      rw [if_pos hw]
  · intro hw
    dsimp only
    rw [if_neg (by omega)]

/-- Witness for claim C9 at the concrete 100-pixel-wide image. -/
theorem C9_witness :
    ({ buffer := [100, 200, 80], width := 100, height := 200,
       pageNumber := 1 } : CompressedImage).width = min 100 MAX_WIDTH ∧
    ({ buffer := [100, 200, 80], width := 100, height := 200,
       pageNumber := 1 } : CompressedImage).width ≤ MAX_WIDTH ∧
    ({ buffer := [100, 200, 80], width := 100, height := 200,
       pageNumber := 1 } : CompressedImage).width ≤ 100 ∧
    (100 ≤ MAX_WIDTH →
      ({ buffer := [100, 200, 80], width := 100, height := 200,
         pageNumber := 1 } : CompressedImage).width = 100 ∧
      ({ buffer := [100, 200, 80], width := 100, height := 200,
         pageNumber := 1 } : CompressedImage).height = 200) ∧
    (MAX_WIDTH < 100 →
      ({ buffer := [100, 200, 80], width := 100, height := 200,
         pageNumber := 1 } : CompressedImage).height = 200 * MAX_WIDTH / 100) :=
  C9_resize_invariants cexEnvD "u" 1 80 { status := 500, body := [7] } 100 200
    _ rfl rfl rfl

/-- Claim C8, amended: a single-page fetch-and-compress call rejects exactly
on a network/timeout error or on a body that fails to decode; the HTTP
status of the response is never inspected, so a non-success response is
rejected only when its body is undecodable, and a response whose body does
decode produces a fulfilled page whatever its status. -/
theorem C8_rejection_conditions (env : Env) (url : String) (pn q : Nat) :
    (∀ e, env.httpGet q (proxyUrl url) = .error e →
      fetchAndCompressImage env url pn q = .error (.fetchFailed e)) ∧
    (∀ res, env.httpGet q (proxyUrl url) = .ok res →
      env.decode res.body = none →
      fetchAndCompressImage env url pn q = .error .decodeFailed) ∧
    (∀ res w h, env.httpGet q (proxyUrl url) = .ok res →
      env.decode res.body = some (w, h) →
      fetchAndCompressImage env url pn q = .ok
        { buffer := env.encode res.body (min w MAX_WIDTH)
            (if w ≤ MAX_WIDTH then h else h * MAX_WIDTH / w) q
          width := min w MAX_WIDTH
          height := if w ≤ MAX_WIDTH then h else h * MAX_WIDTH / w
          pageNumber := pn }) := by
  refine ⟨?_, ?_, ?_⟩
  · intro e he
    unfold fetchAndCompressImage
    rw [he]
  · intro res hres hdec
    unfold fetchAndCompressImage
    rw [hres]
    dsimp only
    rw [hdec]
  · intro res w h hres hdec
    unfold fetchAndCompressImage
    rw [hres]
    dsimp only
    rw [hdec]

/-- Witness for claim C8 at the concrete 500-status response. -/
theorem C8_witness :
    fetchAndCompressImage cexEnvD "u" 1 80 = .ok
      { buffer := cexEnvD.encode [7] (min 100 MAX_WIDTH)
          (if 100 ≤ MAX_WIDTH then 200 else 200 * MAX_WIDTH / 100) 80
        width := min 100 MAX_WIDTH
        height := if 100 ≤ MAX_WIDTH then 200 else 200 * MAX_WIDTH / 100
        pageNumber := 1 } :=
  (C8_rejection_conditions cexEnvD "u" 1 80).2.2
    { status := 500, body := [7] } 100 200 rfl rfl

/-- Counterexample for claim C8 as stated: a response with non-success
status 500 whose body decodes as an image produces a fulfilled page — the
status is never surfaced as a rejection. -/
theorem C8_counterexample :
    cexEnvD.httpGet 80 (proxyUrl "u") = .ok { status := 500, body := [7] } ∧
    ¬ (200 ≤ 500 ∧ (500 : Nat) < 300) ∧
    fetchAndCompressImage cexEnvD "u" 1 80 =
      .ok { buffer := [100, 200, 80], width := 100, height := 200,
            pageNumber := 1 } := by
  refine ⟨rfl, by omega, rfl⟩

theorem sweepEntries_no_failures (cutoff : Int) (l : List TempEntry)
    (hok : ∀ e ∈ l, e.statFails = false ∧ e.unlinkFails = false) :
    sweepEntries cutoff l =
      (none, l.filter fun e => decide (cutoff ≤ e.mtimeMs)) := by
  induction l with
  | nil => rfl
  | cons e rest ih =>
    have he := hok e (List.mem_cons_self _ _)
    have ih' := ih fun x hx => hok x (List.mem_cons_of_mem _ hx)
    simp only [sweepEntries]
    rw [if_neg (by simp [he.1])]
    by_cases hm : e.mtimeMs < cutoff
    · rw [if_pos hm, if_neg (by simp [he.2]), ih']
      rw [List.filter_cons]
      rw [if_neg (by simp; omega)]
    · rw [if_neg hm, ih']
      rw [List.filter_cons]
      rw [if_pos (by simp; omega)]

/-- Claim C5, amended: on an existing scratch directory, when no per-entry
stat or unlink failure occurs, the sweep deletes exactly the entries whose
last-modified time is older than now minus the retention window and returns
without error. (Per the counterexample, a per-entry failure is NOT skipped:
it aborts the sweep of the remaining entries and propagates.) -/
theorem C5_sweep_deletes_old (now : Int) (st : TempDirState)
    (hpres : st.present = true)
    (hok : ∀ e ∈ st.entries, e.statFails = false ∧ e.unlinkFails = false) :
    cleanupTempFiles now st =
      (none, { present := true,
               entries := st.entries.filter fun e =>
                 decide (now - RETENTION_MS ≤ e.mtimeMs) }) := by
  unfold cleanupTempFiles
  rw [if_neg (by simp [hpres])]
  rw [sweepEntries_no_failures _ _ hok]
  rw [hpres]

/-- Witness for claim C5 at a concrete sweep with one old and one fresh entry. -/
theorem C5_witness :
    cleanupTempFiles (2 * RETENTION_MS) cexStateF =
      (none, { present := true,
               entries := cexStateF.entries.filter fun e =>
                 decide (2 * RETENTION_MS - RETENTION_MS ≤ e.mtimeMs) }) ∧
    (cleanupTempFiles (2 * RETENTION_MS) cexStateF).2.entries =
      [cexEntryFresh] := by
  have h := C5_sweep_deletes_old (2 * RETENTION_MS) cexStateF rfl (by decide)
  refine ⟨h, ?_⟩
  rw [h]
  decide

/-- Counterexample for claim C5 as stated: a failing unlink on the first
(old) entry aborts the whole sweep — the error propagates and the second
entry, though older than the cutoff, is not deleted. -/
theorem C5_counterexample :
    cleanupTempFiles (RETENTION_MS + 10) cexStateE =
      (some SweepError.unlinkError, cexStateE) ∧
    cexEntryOld.mtimeMs < (RETENTION_MS + 10) - RETENTION_MS ∧
    cexEntryOld ∈ (cleanupTempFiles (RETENTION_MS + 10) cexStateE).2.entries := by
  refine ⟨by decide, by decide, by decide⟩

theorem sanitize_no_sep (id : List Char) :
    ∀ c ∈ sanitize id, c ≠ '/' ∧ c ≠ '\\' := by
  intro c hc
  simp only [sanitize, List.mem_map] at hc
  obtain ⟨a, _, hfa⟩ := hc
  by_cases h : a = '/' ∨ a = '\\'
  · rw [if_pos h] at hfa
    subst hfa
    exact ⟨by decide, by decide⟩
  · rw [if_neg h] at hfa
    subst hfa
    push_neg at h
    exact h

theorem filename_no_sep (id : List Char) :
    ∀ c ∈ sanitize id ++ ".pdf".toList, c ≠ '/' ∧ c ≠ '\\' := by
  intro c hc
  rcases List.mem_append.mp hc with h | h
  · exact sanitize_no_sep id c h
  · have he : ".pdf".toList = ['.', 'p', 'd', 'f'] := rfl
    rw [he] at h
    simp only [List.mem_cons, List.not_mem_nil, or_false] at h
    rcases h with h | h | h | h <;> subst h <;> exact ⟨by decide, by decide⟩

theorem dirname_flat (dir fname : List Char)
    (hf : ∀ c ∈ fname, c ≠ '/') :
    dirname (dir ++ '/' :: fname) = dir := by
  unfold dirname
  rw [if_pos (by simp)]
  have hrev : (dir ++ '/' :: fname).reverse = fname.reverse ++ '/' :: dir.reverse := by
    simp
  rw [hrev]
  have hdrop : ∀ l : List Char, (∀ c ∈ l, c ≠ '/') →
      List.dropWhile (fun c => decide (c ≠ '/')) (l ++ '/' :: dir.reverse) =
        '/' :: dir.reverse := by
    intro l hl
    induction l with
    | nil => simp [List.dropWhile]
    | cons x xs ih =>
      rw [List.cons_append, List.dropWhile_cons]
      rw [if_pos (by simp [hl x (List.mem_cons_self _ _)])]
      exact ih fun c hc => hl c (List.mem_cons_of_mem _ hc)
  have hf' : ∀ c ∈ fname.reverse, c ≠ '/' := fun c hc =>
    hf c (List.mem_reverse.mp hc)
  rw [hdrop fname.reverse hf']
  simp

/-- Claim C7: every file written by createChapterPDF — for any chapter
identifier, including ones containing '/' or '\\' — lands at the flat path
scratch-dir/sanitized-id.pdf, where the sanitized filename contains no path
separator, so the parent directory of the written file is exactly the
scratch directory and the identifier can neither escape it nor create
nested paths. -/
theorem C7_flat_scratch_entry (env : Env) (pagesResp : Option (List ChapterPage))
    (chapterId : List Char) (tdp : Bool) (p : List Char) (d : SavedPdf)
    (hmem : FsEff.writeFile p d ∈ (createChapterPDF env pagesResp chapterId tdp).2) :
    p = TEMP_DIR ++ '/' :: (sanitize chapterId ++ ".pdf".toList) ∧
    (∀ c ∈ sanitize chapterId ++ ".pdf".toList, c ≠ '/' ∧ c ≠ '\\') ∧
    dirname p = TEMP_DIR := by
  have hpath : p = TEMP_DIR ++ '/' :: (sanitize chapterId ++ ".pdf".toList) := by
    rcases pagesResp with _ | pages
    · simp [createChapterPDF] at hmem
    · simp only [createChapterPDF] at hmem
      by_cases hlen : pages.length = 0
      · rw [if_pos hlen] at hmem
        simp at hmem
      · rw [if_neg hlen] at hmem
        rcases hpdf : (compressionLoop env pages 85 none []).pdf with _ | saved
        · rw [hpdf] at hmem
          rcases tdp <;> simp at hmem
        · rw [hpdf] at hmem
          rcases tdp <;> simp at hmem <;> exact hmem.1
  refine ⟨hpath, filename_no_sep chapterId, ?_⟩
  rw [hpath]
  exact dirname_flat TEMP_DIR _
    (fun c hc => (filename_no_sep chapterId c hc).1)

theorem cexLoopA_eval : compressionLoop cexEnvA cexPagesA 85 none [] =
    { quality := 15,
      pdf := some { doc := [{ width := 10, height := 10, image := [25] }],
                    size := 60 * 1024 * 1024 },
      attempted := [85, 75, 65, 55, 45, 35, 25] } := by
  simp [compressionLoop, attemptImages, attemptResults, fetchAndCompressImage,
    cexEnvA, cexPagesA, settledValue, buildPdf, toPdfPage, PDF_SIZE_LIMIT,
    MAX_PDF_MB, MAX_WIDTH]

theorem cexLoopB_eval : compressionLoop cexEnvB cexPagesB 85 none [] =
    { quality := 75,
      pdf := some { doc := [{ width := 10, height := 10, image := [85] },
                            { width := 10, height := 10, image := [85] }],
                    size := 60 * 1024 * 1024 },
      attempted := [85, 75] } := by
  simp [compressionLoop, attemptImages, attemptResults, fetchAndCompressImage,
    cexEnvB, cexPagesB, settledValue, buildPdf, toPdfPage, PDF_SIZE_LIMIT,
    MAX_PDF_MB, MAX_WIDTH, proxyUrl]

theorem cexLoopC_eval : compressionLoop cexEnvC cexPagesC 85 none [] =
    { quality := 85,
      pdf := some { doc := [{ width := 10, height := 10, image := [2] },
                            { width := 10, height := 10, image := [1] }],
                    size := 0 },
      attempted := [85] } := by
  simp [compressionLoop, attemptImages, attemptResults, fetchAndCompressImage,
    cexEnvC, cexPagesC, settledValue, buildPdf, toPdfPage, PDF_SIZE_LIMIT,
    MAX_PDF_MB, MAX_WIDTH, proxyUrl]

/-- Claim C1, amended: when at some attempted quality fewer pages fulfil
than requested, the loop aborts at once (a partial failure at the first
attempted quality 85 leaves the attempted list at [85] — no lower quality is
tried); if this happens with no earlier successful attempt — in particular
when a page fails at every quality — the call errors (writing the still
undefined pdfBytes throws) and nothing is written. In every case, any
successful result reports totalPages equal to the chapter's page count and
any written document has exactly that many pages — an N−1-page document is
never produced. (Per the counterexample, the call does NOT always reject: a
partial failure after an earlier oversized attempt returns that stale
document instead of an aggregate error.) -/
theorem C1_partial_failure (env : Env) (pages : List ChapterPage)
    (chapterId : List Char) (tdp : Bool)
    (hfail : ∀ q, (attemptImages env pages q).length < pages.length) :
    (createChapterPDF env (some pages) chapterId tdp).1 =
      .error .writeUndefined ∧
    (∀ p d, FsEff.writeFile p d ∉
      (createChapterPDF env (some pages) chapterId tdp).2) ∧
    (compressionLoop env pages 85 none []).attempted = [85] ∧
    (∀ env₂ pages₂ id₂ tdp₂ r,
      (createChapterPDF env₂ (some pages₂) id₂ tdp₂).1 = .ok r →
      r.totalPages = pages₂.length) ∧
    (∀ env₂ pages₂ id₂ tdp₂ p d,
      FsEff.writeFile p d ∈ (createChapterPDF env₂ (some pages₂) id₂ tdp₂).2 →
      d.doc.length = pages₂.length) := by
  have hlen : ¬ pages.length = 0 := by
    have := hfail 85
    omega
  have hloop : compressionLoop env pages 85 none [] =
      { quality := 85, pdf := none, attempted := [85] } := by
    rw [compressionLoop.eq_def]
    rw [dif_pos (by omega : (20 : Nat) ≤ 85)]
    dsimp only
    rw [if_pos (hfail 85)]
    simp
  refine ⟨?_, ?_, ?_, ?_, ?_⟩
  · simp only [createChapterPDF]
    rw [if_neg hlen, hloop]
  · intro p d hmem
    simp only [createChapterPDF] at hmem
    rw [if_neg hlen, hloop] at hmem
    rcases tdp <;> simp at hmem
  · rw [hloop]
  · intro env₂ pages₂ id₂ tdp₂ r hr
    simp only [createChapterPDF] at hr
    by_cases hl : pages₂.length = 0
    · rw [if_pos hl] at hr
      simp at hr
    · rw [if_neg hl] at hr
      rcases hpdf : (compressionLoop env₂ pages₂ 85 none []).pdf with _ | saved
      · rw [hpdf] at hr
        simp at hr
      · rw [hpdf] at hr
        simp at hr
        rw [← hr]
  · intro env₂ pages₂ id₂ tdp₂ p d hmem
    simp only [createChapterPDF] at hmem
    by_cases hl : pages₂.length = 0
    · rw [if_pos hl] at hmem
      simp at hmem
    · rw [if_neg hl] at hmem
      rcases hpdf : (compressionLoop env₂ pages₂ 85 none []).pdf with _ | saved
      · rw [hpdf] at hmem
        rcases tdp₂ <;> simp at hmem
      · rw [hpdf] at hmem
        have hsaved : saved.doc.length = pages₂.length := by
          refine compressionLoop_pdf_pages env₂ pages₂ 85 none [] ?_ saved hpdf
          intro d' hd'
          exact Option.noConfusion hd'
        rcases tdp₂ <;> simp at hmem <;> rw [hmem.2, hsaved]
  
/-- Witness for claim C1 at a concrete run where the page fails at every quality. -/
theorem C1_witness :
    (createChapterPDF cexEnvE (some cexPagesA) ['z'] true).1 =
      .error .writeUndefined ∧
    (compressionLoop cexEnvE cexPagesA 85 none []).attempted = [85] := by
  have h := C1_partial_failure cexEnvE cexPagesA ['z'] true
    (fun q => Nat.one_pos)
  exact ⟨h.1, h.2.2.1⟩

/-- Counterexample for claim C1 as stated: at attempted quality 75 fewer
pages fulfil than requested, yet the call returns a successful result (the
stale quality-85 document) instead of rejecting with an aggregate error. -/
theorem C1_counterexample :
    (attemptImages cexEnvB cexPagesB 75).length < cexPagesB.length ∧
    75 ∈ (compressionLoop cexEnvB cexPagesB 85 none []).attempted ∧
    Except.map ExportResult.quality
      (createChapterPDF cexEnvB (some cexPagesB) ['c'] true).1 =
      Except.ok 75 := by
  have hlen : (cexPagesB.length = 0) ↔ False := by simp [cexPagesB]
  refine ⟨?_, ?_, ?_⟩
  · simp [attemptImages, attemptResults, fetchAndCompressImage, cexEnvB,
      cexPagesB, settledValue, proxyUrl]
  · rw [cexLoopB_eval]
    decide
  · simp [createChapterPDF, hlen, cexLoopB_eval, Except.map]

/-- Claim C2, amended: when every page fulfils at every attempted quality,
a run in which some attempted quality meets the ceiling returns the document
of the highest attempted passing quality with the quality field equal to
that quality; a run in which no attempted quality meets the ceiling still
writes and returns the last attempt's document — which was produced at
quality 25 — but the quality field reports 15, the loop variable after the
final decrement, a value at which no attempt was ever made. -/
theorem C2_quality_of_result (env : Env) (pages : List ChapterPage)
    (chapterId : List Char) (tdp : Bool) (hne : ¬ pages.length = 0)
    (hfull : ∀ q, (attemptImages env pages q).length = pages.length) :
    (∀ q₀, q₀ ∈ QUALITIES → sizeAt env pages q₀ ≤ PDF_SIZE_LIMIT →
      (∀ qq ∈ QUALITIES, q₀ < qq → PDF_SIZE_LIMIT < sizeAt env pages qq) →
      ∃ r, (createChapterPDF env (some pages) chapterId tdp).1 = .ok r ∧
        r.quality = q₀ ∧
        FsEff.writeFile (TEMP_DIR ++ '/' :: (sanitize chapterId ++ ".pdf".toList))
          (buildPdf env (attemptImages env pages q₀))
          ∈ (createChapterPDF env (some pages) chapterId tdp).2) ∧
    ((∀ qq ∈ QUALITIES, PDF_SIZE_LIMIT < sizeAt env pages qq) →
      ∃ r, (createChapterPDF env (some pages) chapterId tdp).1 = .ok r ∧
        r.quality = 15 ∧
        15 ∉ (compressionLoop env pages 85 none []).attempted ∧
        FsEff.writeFile (TEMP_DIR ++ '/' :: (sanitize chapterId ++ ".pdf".toList))
          (buildPdf env (attemptImages env pages 25))
          ∈ (createChapterPDF env (some pages) chapterId tdp).2) := by
  constructor
  · intro q₀ hq₀ hsz hhi
    have hp := compressionLoop_pass env pages hfull 85 none [] q₀
      (by rw [descList_85]; exact hq₀) hsz
      (fun qq hqq hlt => hhi qq (by rwa [descList_85] at hqq) hlt)
    simp only [createChapterPDF]
    rw [if_neg hne, hp.2, hp.1]
    exact ⟨_, rfl, rfl, by simp⟩
  · intro hbig
    have he := compressionLoop_exhaust env pages hfull 85 none []
      (fun qq hqq => hbig qq (by rwa [descList_85] at hqq))
    have hlast : lastAttemptDoc env pages 85 none =
        some (buildPdf env (attemptImages env pages 25)) := by
      simp [lastAttemptDoc]
    have he' : compressionLoop env pages 85 none [] =
        { quality := 15,
          pdf := some (buildPdf env (attemptImages env pages 25)),
          attempted := QUALITIES } := by
      rw [he, exitQuality_85, hlast, descList_85]
      simp
    simp only [createChapterPDF]
    rw [if_neg hne, he']
    refine ⟨_, rfl, rfl, by simp [QUALITIES], by simp⟩

/-- Witness for claim C2 at a concrete run accepted at quality 85. -/
theorem C2_witness :
    ∃ r, (createChapterPDF cexEnvC (some cexPagesC) ['w'] true).1 = .ok r ∧
      r.quality = 85 ∧
      FsEff.writeFile (TEMP_DIR ++ '/' :: (sanitize ['w'] ++ ".pdf".toList))
        (buildPdf cexEnvC (attemptImages cexEnvC cexPagesC 85))
        ∈ (createChapterPDF cexEnvC (some cexPagesC) ['w'] true).2 := by
  refine (C2_quality_of_result cexEnvC cexPagesC ['w'] true (by decide)
    (fun q => rfl)).1 85 (by decide) (Nat.zero_le _) ?_
  intro qq hqq hlt
  exfalso
  simp [QUALITIES] at hqq
  omega

/-- Counterexample for claim C2 as stated: on an exhaustion run the result's
quality field is 15 while the written document is the quality-25 attempt
(its buffer records the encode quality 25), and 15 was never attempted. -/
theorem C2_counterexample :
    Except.map ExportResult.quality
      (createChapterPDF cexEnvA (some cexPagesA) ['c'] true).1 =
      Except.ok 15 ∧
    (compressionLoop cexEnvA cexPagesA 85 none []).pdf =
      some { doc := [{ width := 10, height := 10, image := [25] }],
             size := 60 * 1024 * 1024 } ∧
    15 ∉ (compressionLoop cexEnvA cexPagesA 85 none []).attempted ∧
    25 ∈ (compressionLoop cexEnvA cexPagesA 85 none []).attempted := by
  have hlen : (cexPagesA.length = 0) ↔ False := by simp [cexPagesA]
  refine ⟨?_, ?_, ?_, ?_⟩
  · simp [createChapterPDF, hlen, cexLoopA_eval, Except.map]
  · rw [cexLoopA_eval]
  · rw [cexLoopA_eval]
    decide
  · rw [cexLoopA_eval]
    decide

/-- Claim C4, amended: a run of the compression loop to exhaustion attempts
exactly the qualities 85, 75, 65, 55, 45, 35, 25 — starting at 85 and
stepping by 10 — and never attempts quality 20: the guard `20 ≤ quality`
admits 25 but not 15, so the floor value 20 itself is unreachable from the
start value 85, and the loop exits with the loop variable at 15. -/
theorem C4_attempted_sequence (env : Env) (pages : List ChapterPage)
    (hfull : ∀ q, (attemptImages env pages q).length = pages.length)
    (hbig : ∀ qq ∈ QUALITIES, PDF_SIZE_LIMIT < sizeAt env pages qq) :
    (compressionLoop env pages 85 none []).attempted = QUALITIES ∧
    QUALITIES = [85, 75, 65, 55, 45, 35, 25] ∧
    20 ∉ (compressionLoop env pages 85 none []).attempted ∧
    (compressionLoop env pages 85 none []).quality = 15 := by
  have he := compressionLoop_exhaust env pages hfull 85 none []
    (fun qq hqq => hbig qq (by rwa [descList_85] at hqq))
  refine ⟨?_, rfl, ?_, ?_⟩
  · rw [he]
    dsimp only
    rw [List.nil_append, descList_85]
  · rw [he]
    dsimp only
    rw [List.nil_append, descList_85]
    decide
  · rw [he]
    dsimp only
    rw [exitQuality_85]

/-- Witness for claim C4 at a concrete exhaustion run. -/
theorem C4_witness :
    (compressionLoop cexEnvA cexPagesA 85 none []).attempted = QUALITIES ∧
    QUALITIES = [85, 75, 65, 55, 45, 35, 25] ∧
    20 ∉ (compressionLoop cexEnvA cexPagesA 85 none []).attempted ∧
    (compressionLoop cexEnvA cexPagesA 85 none []).quality = 15 :=
  C4_attempted_sequence cexEnvA cexPagesA (fun q => rfl)
    (fun qq hqq =>
      (by norm_num : (50 * 1024 * 1024 : Nat) < 60 * 1024 * 1024))

/-- Counterexample for claim C4 as stated: an exhaustion run attempts
exactly 85, 75, 65, 55, 45, 35, 25 — quality 20 is never attempted. -/
theorem C4_counterexample :
    (compressionLoop cexEnvA cexPagesA 85 none []).attempted =
      [85, 75, 65, 55, 45, 35, 25] ∧
    20 ∉ (compressionLoop cexEnvA cexPagesA 85 none []).attempted ∧
    (compressionLoop cexEnvA cexPagesA 85 none []).quality = 15 := by
  rw [cexLoopA_eval]
  refine ⟨rfl, by decide, rfl⟩

theorem completeOrder_cons_none {α : Type} (tasks : List α) (j : Nat)
    (rest : List Nat) (htj : tasks.get? j = none) :
    completeOrder tasks (j :: rest) = completeOrder tasks rest := by
  unfold completeOrder
  rw [List.filterMap_cons, htj]
  rfl

theorem completeOrder_cons_some {α : Type} (tasks : List α) (j : Nat)
    (rest : List Nat) (u : α) (htj : tasks.get? j = some u) :
    completeOrder tasks (j :: rest) = (j, u) :: completeOrder tasks rest := by
  unfold completeOrder
  rw [List.filterMap_cons, htj]
  rfl

theorem completeOrder_find {α : Type} (tasks : List α) (sched : List Nat)
    (i : Nat) (t : α) (ht : tasks.get? i = some t) :
    i ∈ sched →
    (completeOrder tasks sched).find? (fun p => p.1 == i) = some (i, t) := by
  induction sched with
  | nil => intro h; simp at h
  | cons j rest ih =>
    intro hmem
    cases htj : tasks.get? j with
    | none =>
      have hij : i ≠ j := by
        intro h
        subst h
        rw [ht] at htj
        exact Option.noConfusion htj
      rw [completeOrder_cons_none tasks j rest htj]
      refine ih ?_
      rcases List.mem_cons.mp hmem with h | h
      · exact absurd h hij
      · exact h
    | some u =>
      rw [completeOrder_cons_some tasks j rest u htj]
      by_cases hij : j = i
      · subst hij
        rw [ht] at htj
        injection htj with htj
        subst htj
        rw [List.find?_cons_of_pos _ (by simp)]
      · rw [List.find?_cons_of_neg _ (by simp [hij])]
        refine ih ?_
        rcases List.mem_cons.mp hmem with h | h
        · exact absurd h.symm hij
        · exact h

theorem settleBack_perm {α : Type} (tasks : List α) (sched : List Nat)
    (hperm : sched.Perm (List.range tasks.length)) :
    settleBack tasks.length (completeOrder tasks sched) = tasks.map some := by
  apply List.ext_get?
  intro i
  by_cases hi : i < tasks.length
  · obtain ⟨t, ht⟩ : ∃ t, tasks.get? i = some t := by
      rw [List.get?_eq_get hi]
      exact ⟨_, rfl⟩
    have hmem : i ∈ sched := hperm.mem_iff.mpr (List.mem_range.mpr hi)
    unfold settleBack
    rw [List.get?_map, List.get?_range hi]
    dsimp only [Option.map_some']
    rw [completeOrder_find tasks sched i t ht hmem]
    rw [List.get?_map, ht]
    rfl
  · rw [List.get?_eq_none.mpr, List.get?_eq_none.mpr]
    · simp
      omega
    · unfold settleBack
      simp
      omega

/-- Claim C3, amended: the settled outcomes of one attempt observed through
the completion-order model equal the outcomes in the input order of the page
list, for every completion schedule (permutation of the task indices) —
network completion order never determines document page order. (Per the
counterexample, the fulfilled pages are NOT re-sorted by page number: they
stay in page-list order, which need not be page-number order.) -/
theorem C3_completion_order_independence (env : Env) (pages : List ChapterPage)
    (quality : Nat) (sched : List Nat)
    (hperm : sched.Perm (List.range pages.length)) :
    attemptResultsSched env pages quality sched =
      (attemptResults env pages quality).map some := by
  have hlen : (attemptResults env pages quality).length = pages.length := by
    simp [attemptResults]
  unfold attemptResultsSched
  rw [show pages.length = (attemptResults env pages quality).length from hlen.symm]
  exact settleBack_perm _ sched (by rwa [hlen])

/-- Witness for claim C3 at a concrete two-page attempt with a reversed completion schedule. -/
theorem C3_witness :
    ([1, 0] : List Nat).Perm (List.range cexPagesC.length) ∧
    attemptResultsSched cexEnvC cexPagesC 85 [1, 0] =
      (attemptResults cexEnvC cexPagesC 85).map some :=
  ⟨by decide,
   C3_completion_order_independence cexEnvC cexPagesC 85 [1, 0] (by decide)⟩

/-- Counterexample for claim C3 as stated: with the page list listing page 2
before page 1, the fulfilled images reach assembly in list order [2, 1] —
not sorted by page number — and the assembled document puts page 2 first. -/
theorem C3_counterexample :
    (attemptImages cexEnvC cexPagesC 85).map CompressedImage.pageNumber =
      [2, 1] ∧
    ¬ List.Sorted (· ≤ ·)
      ((attemptImages cexEnvC cexPagesC 85).map CompressedImage.pageNumber) ∧
    (buildPdf cexEnvC (attemptImages cexEnvC cexPagesC 85)).doc =
      [{ width := 10, height := 10, image := [2] },
       { width := 10, height := 10, image := [1] }] := by
  have h : (attemptImages cexEnvC cexPagesC 85).map CompressedImage.pageNumber =
      [2, 1] := by
    simp [attemptImages, attemptResults, fetchAndCompressImage, cexEnvC,
      cexPagesC, settledValue, proxyUrl]
  refine ⟨h, ?_, ?_⟩
  · rw [h]
    simp [List.sorted_cons]
  · simp [attemptImages, attemptResults, fetchAndCompressImage, cexEnvC,
      cexPagesC, settledValue, proxyUrl, buildPdf, toPdfPage, MAX_WIDTH]

/-- Witness for claim C7 at a concrete export of the chapter id a/b. -/
theorem C7_witness :
    FsEff.writeFile
      (TEMP_DIR ++ '/' :: (sanitize ('a' :: '/' :: 'b' :: []) ++ ".pdf".toList))
      { doc := [{ width := 10, height := 10, image := [2] },
                { width := 10, height := 10, image := [1] }], size := 0 }
      ∈ (createChapterPDF cexEnvC (some cexPagesC)
          ('a' :: '/' :: 'b' :: []) true).2 ∧
    sanitize ('a' :: '/' :: 'b' :: []) = 'a' :: '_' :: 'b' :: [] ∧
    dirname (TEMP_DIR ++ '/' ::
      (sanitize ('a' :: '/' :: 'b' :: []) ++ ".pdf".toList)) = TEMP_DIR := by
  have hlen : (cexPagesC.length = 0) ↔ False := by simp [cexPagesC]
  have hm : FsEff.writeFile
      (TEMP_DIR ++ '/' :: (sanitize ('a' :: '/' :: 'b' :: []) ++ ".pdf".toList))
      { doc := [{ width := 10, height := 10, image := [2] },
                { width := 10, height := 10, image := [1] }], size := 0 }
      ∈ (createChapterPDF cexEnvC (some cexPagesC)
          ('a' :: '/' :: 'b' :: []) true).2 := by
    simp [createChapterPDF, hlen, cexLoopC_eval]
  exact ⟨hm, by decide,
    (C7_flat_scratch_entry cexEnvC (some cexPagesC) _ true _ _ hm).2.2⟩

end DuckyDex
